import Mathlib

/-!
Verification of the `request-uri` package (`src/index.ts`): a `Uri` class
extending the standard `URL`, with a base-resolution algorithm
(`Uri.#resolveBaseFromRequest`) over duck-typed request shapes, a creation
entry point (`Uri._request`, exposed as `Uri.request` / `Uri.from`), and
fluent mutators (`setQuery`, `setProtocol`, `setPort`, `setHost`, `setPath`).

JavaScript values relevant to the dispatch are embedded explicitly:
truthiness of strings is nonemptiness, `undefined`/missing fields are
`Option.none`, and `String(v)` conversion is modelled by `JsValue.toStringJs`.
-/

/-- A JavaScript value as it can appear as a query value (`unknown` in the
source).  `objV s` stands for an object whose default string conversion
(`String(v)`) yields `s`. -/
inductive JsValue where
  | str (s : String)
  | num (n : Int)
  | boolean (b : Bool)
  | nullV
  | undefV
  | objV (s : String)
deriving DecidableEq, Repr

/-- JavaScript `String(v)` default conversion. -/
def JsValue.toStringJs : JsValue → String
  | .str s => s
  | .num n => toString n
  | .boolean b => if b then "true" else "false"
  | .nullV => "null"
  | .undefV => "undefined"
  | .objV s => s

/-- A value of a header entry: `string | string[]` in the source's
`Record<string, string | string[] | undefined>`. -/
inductive HeaderVal where
  | str (s : String)
  | arr (xs : List String)
deriving DecidableEq, Repr

/-- JavaScript truthiness of a header value: a string is truthy iff
nonempty; an array object is always truthy. -/
def HeaderVal.truthy : HeaderVal → Bool
  | .str s => s ≠ ""
  | .arr _ => true

/-- Template-literal interpolation of a header value (`${...}`): arrays
join with commas. -/
def HeaderVal.toStringJs : HeaderVal → String
  | .str s => s
  | .arr xs => String.intercalate "," xs

/-- The `port` field: `string | number` in `CustomRequest`. -/
inductive PortVal where
  | str (s : String)
  | num (n : Int)
deriving DecidableEq, Repr

/-- JavaScript truthiness of a port value: nonempty string, or nonzero
number. -/
def PortVal.truthy : PortVal → Bool
  | .str s => s ≠ ""
  | .num n => n ≠ 0

/-- Template-literal interpolation of a port value. -/
def PortVal.toStringJs : PortVal → String
  | .str s => s
  | .num n => toString n

/-- The `headers` record, of which only `host` is consulted.  `none` means
the key is absent (reads as `undefined`). -/
structure Headers where
  host : Option HeaderVal := none
deriving DecidableEq, Repr

/-- `CustomRequest` from the source: a plain object with optional `host`,
`protocol`, `port` and `headers` fields.  Fastify-style requests are
covered by this shape (only these fields are ever read). -/
structure CustomRequest where
  host : Option String := none
  protocol : Option String := none
  port : Option PortVal := none
  headers : Option Headers := none
deriving DecidableEq, Repr

/-- `UriRequest = FastifyRequest | Request | CustomRequest | string`.
A fetch `Request` contributes only its `url` field. -/
inductive UriRequest where
  | str (s : String)
  | fetch (url : String)
  | custom (r : CustomRequest)
deriving DecidableEq, Repr

/-- JavaScript truthiness of a `UriRequest` value: objects are truthy,
strings are truthy iff nonempty. -/
def UriRequest.truthy : UriRequest → Bool
  | .str s => s ≠ ""
  | .fetch _ => true
  | .custom _ => true

/-- The browser `location` object; absent `href` and empty `href` are both
falsy in the source's `window.location.href || window.location.origin`, so
a single string with `""` for missing suffices. -/
structure Location where
  origin : String := ""
  href : String := ""
deriving DecidableEq, Repr

/-- The browser `window` global; `location` may be absent (the source
guards with `window?.location?.origin`). -/
structure Window where
  location : Option Location := none
deriving DecidableEq, Repr

/-- The ambient environment: `none` models `typeof window === "undefined"`. -/
abbrev Env := Option Window

/-- The two process-wide configuration slots of the `Uri` class:
`Uri.fallbackBase` and the private static `Uri.#request`. -/
structure UriState where
  fallbackBase : Option String := none
  staticRequest : Option UriRequest := none
deriving DecidableEq, Repr

namespace Uri

/-- `Uri.setRequest`: stores the default request object. -/
def setRequest (st : UriState) (r : UriRequest) : UriState :=
  { st with staticRequest := some r }

/-- Assignment to the public static `Uri.fallbackBase` property. -/
def setFallbackBase (st : UriState) (b : Option String) : UriState :=
  { st with fallbackBase := b }

/-- The source line `request = request || this.#request`: a falsy argument
(absent, or the empty string) is replaced by the stored static request. -/
def resolveCandidate (st : UriState) (request? : Option UriRequest) :
    Option UriRequest :=
  match request? with
  | some r => if r.truthy then some r else st.staticRequest
  | none => st.staticRequest

/-- Rule 1 of `#resolveBaseFromRequest`: the ambient browser signal.
`some b` means the rule fires and returns `b`
(`window.location.href || window.location.origin`); `none` means the guard
`typeof window !== "undefined" && window?.location?.origin` is falsy and
resolution falls through. -/
def browserBase (env : Env) : Option String :=
  match env with
  | none => none
  | some w =>
    match w.location with
    | none => none
    | some loc =>
      if loc.origin = "" then none
      else some (if loc.href = "" then loc.origin else loc.href)

/-- The guard of rule 4 (`request.headers?.host && request.protocol`). -/
def rule4 (r : CustomRequest) : Bool :=
  (r.headers.bind Headers.host).elim false HeaderVal.truthy &&
    r.protocol.elim false (· ≠ "")

/-- The string built by rule 4: `` `${request.protocol}://${request.headers.host}` ``. -/
def rule4Out (r : CustomRequest) : String :=
  r.protocol.getD "" ++ "://" ++
    ((r.headers.bind Headers.host).map HeaderVal.toStringJs).getD ""

/-- The guard of rule 5 (`request.protocol && request.host && request.port`);
the `typeof request === "object"` conjunct is true for every `CustomRequest`. -/
def rule5 (r : CustomRequest) : Bool :=
  r.protocol.elim false (· ≠ "") && r.host.elim false (· ≠ "") &&
    (r.port.elim false PortVal.truthy)

/-- The string built by rule 5: `` `${request.protocol}://${request.host}:${request.port}` ``. -/
def rule5Out (r : CustomRequest) : String :=
  r.protocol.getD "" ++ "://" ++ r.host.getD "" ++ ":" ++
    ((r.port.map PortVal.toStringJs).getD "")

/-- `Uri.#resolveBaseFromRequest`, rule for rule:
1. browser signal; 2. literal string; 3. fetch `Request.url`;
4. `protocol://headers.host`; 5. `protocol://host:port`; 6. `fallbackBase`. -/
def resolveBaseFromRequest (env : Env) (st : UriState)
    (request? : Option UriRequest) : Option String :=
  let request := resolveCandidate st request?
  match browserBase env with
  | some b => some b
  | none =>
    match request with
    | some (.str s) => some s
    | some (.fetch url) => some url
    | some (.custom r) =>
      if rule4 r then some (rule4Out r)
      else if rule5 r then some (rule5Out r)
      else st.fallbackBase
    | none => st.fallbackBase

end Uri

/-!
The standard `URL` abstraction that `Uri` extends.  This is the external
collaborator of spec §6 ("a standard absolute-URL type providing
parse/validate/stringify and field accessors"); it is not code of this
repository, so it is modelled here from the standard WHATWG URL semantics
the spec refers to, restricted to the `scheme://host[:port]` form the
package exercises (scheme/host case-normalisation, percent-encoding,
default-port elision and IPv6 hosts are out of scope of every claim and
are omitted).
-/

/-- Split a character list at the first occurrence of `sep`: returns the
part before it and, when `sep` occurs, the part after it. -/
def splitFirst (sep : Char) : List Char → List Char × Option (List Char)
  | [] => ([], none)
  | c :: cs =>
    if c = sep then ([], some cs)
    else
      let r := splitFirst sep cs
      (c :: r.1, r.2)

/-- Split off the scheme: succeeds on `scheme ++ "://" ++ rest`. -/
def splitScheme : List Char → Option (List Char × List Char)
  | [] => none
  | c :: cs =>
    if c = ':' ∧ cs.take 2 = ['/', '/'] then some ([], cs.drop 2)
    else (splitScheme cs).map fun r => (c :: r.1, r.2)

/-- Split a character list at every occurrence of `sep`. -/
def splitAll (sep : Char) : List Char → List (List Char)
  | [] => [[]]
  | c :: cs =>
    if c = sep then [] :: splitAll sep cs
    else
      match splitAll sep cs with
      | [] => [[c]]
      | h :: t => (c :: h) :: t

/-- Parse a query string (the part after `?`) into key/value pairs the way
`URLSearchParams` does: split on `&`, drop empty segments, split each
segment at the first `=` (missing `=` gives the empty value). -/
def parseQS (l : List Char) : List (String × String) :=
  (splitAll '&' l).filterMap fun seg =>
    if seg = [] then none
    else
      let r := splitFirst '=' seg
      some (String.mk r.1, String.mk (r.2.getD []))

/-- First character is `'/'`. -/
def startsWithSlash (s : String) : Bool :=
  match s.data with
  | c :: _ => c = '/'
  | [] => false

/-- A valid scheme: a letter followed by letters, digits, `+`, `-`, `.`. -/
def validSchemeStr (s : String) : Bool :=
  match s.data with
  | [] => false
  | c :: cs => c.isAlpha && cs.all fun d => d.isAlphanum || d = '+' || d = '-' || d = '.'

/-- A valid host: nonempty, free of structural delimiters. -/
def validHostStr (h : String) : Bool :=
  h ≠ "" && h.data.all fun c =>
    !(c = '/' || c = ':' || c = '?' || c = '#' || c = '@' || c = ' ' || c = '\\')

/-- Decimal value of a nonempty all-digit character list. -/
def digitsToNat? (l : List Char) : Option Nat :=
  if l ≠ [] && l.all Char.isDigit then
    some (l.foldl (fun a c => a * 10 + (c.toNat - 48)) 0)
  else none

/-- A valid port: empty, or a digit string whose value is at most 65535. -/
def validPortStr (p : String) : Bool :=
  p = "" || ((digitsToNat? p.data).elim false (· ≤ 65535))

/-- The record behind a `URL` object (and hence behind a `Uri` instance):
scheme without the `:`, hostname, port digits (`""` when absent), pathname
(always slash-led), the `searchParams` list, and the fragment. -/
structure URLRec where
  scheme : String := ""
  host : String := ""
  port : String := ""
  pathname : String := "/"
  query : List (String × String) := []
  fragment : String := ""
deriving DecidableEq, Repr, Inhabited

/-- The URL-record invariant: a syntactically valid absolute URL. -/
def URLRec.valid (u : URLRec) : Bool :=
  validSchemeStr u.scheme && validHostStr u.host && validPortStr u.port &&
    startsWithSlash u.pathname

/-- The `origin` accessor: `scheme://host` with the port when present. -/
def URLRec.originStr (u : URLRec) : String :=
  u.scheme ++ "://" ++ u.host ++ (if u.port = "" then "" else ":" ++ u.port)

/-- `some u` when `u` is valid, else `none`: URL construction throws
`Invalid URL` exactly when the assembled record is not a valid absolute
URL. -/
def checkValid (u : URLRec) : Option URLRec :=
  if u.valid then some u else none

/-- Decompose an absolute-URL string into a raw record (validity is checked
afterwards by `parseURL`): scheme before `://`, then fragment after the
first `#`, query after the first `?`, path from the first `/` of the
remainder, and `host[:port]` in front of it. -/
def buildURL (s : String) : Option URLRec :=
  (splitScheme s.data).map fun r =>
    let bf := splitFirst '#' r.2
    let bq := splitFirst '?' bf.1
    let ap := splitFirst '/' bq.1
    let hp := splitFirst ':' ap.1
    { scheme := String.mk r.1
      host := String.mk hp.1
      port := String.mk (hp.2.getD [])
      pathname := String.mk ('/' :: (ap.2.getD []))
      query := parseQS (bq.2.getD [])
      fragment := String.mk (bf.2.getD []) }

/-- `new URL(s)` on a single absolute string: decompose, then validate. -/
def parseURL (s : String) : Option URLRec :=
  (buildURL s).bind checkValid

/-- Split a relative reference into path, query and fragment parts. -/
def splitPQF (l : List Char) : List Char × List Char × List Char :=
  ((splitFirst '?' (splitFirst '#' l).1).1,
   (splitFirst '?' (splitFirst '#' l).1).2.getD [],
   (splitFirst '#' l).2.getD [])

/-- Merge a relative path onto a base pathname (RFC 3986 §5.3 merge,
without dot-segment normalisation, which no claim exercises): base up to
and including its last `/`, then the reference. -/
def mergePath (basePath rel : String) : String :=
  String.mk ((basePath.data.reverse.dropWhile (· ≠ '/')).reverse ++ rel.data)

/-- Resolve a relative reference `p` against a parsed base `bu`, per the
standard URL semantics the constructor `new URL(p, base)` applies:
`//`-led references replace the authority, `/`-led ones replace the path,
`?`/`#`-led ones keep it, and the rest merge with it. -/
def resolveRelative (bu : URLRec) (p : String) : Option URLRec :=
  match p.data with
  | [] => checkValid { bu with fragment := "" }
  | '/' :: '/' :: rest => parseURL (bu.scheme ++ "://" ++ String.mk rest)
  | '/' :: rest =>
    let r := splitPQF ('/' :: rest)
    checkValid { scheme := bu.scheme, host := bu.host, port := bu.port,
                 pathname := String.mk r.1, query := parseQS r.2.1,
                 fragment := String.mk r.2.2 }
  | '?' :: rest =>
    let bf := splitFirst '#' rest
    checkValid { bu with query := parseQS bf.1,
                         fragment := String.mk (bf.2.getD []) }
  | '#' :: rest => checkValid { bu with fragment := String.mk rest }
  | c :: rest =>
    let r := splitPQF (c :: rest)
    checkValid { scheme := bu.scheme, host := bu.host, port := bu.port,
                 pathname := mergePath bu.pathname (String.mk r.1),
                 query := parseQS r.2.1, fragment := String.mk r.2.2 }

/-- `new URL(path, base?)`: `path` parsed as absolute when possible,
otherwise resolved against the base; no base and no absolute path is the
`Invalid URL` failure (`none`). -/
def newURL (path : String) (base : Option String) : Option URLRec :=
  match parseURL path with
  | some u => some u
  | none =>
    match base with
    | none => none
    | some b => (parseURL b).bind fun bu => resolveRelative bu path

namespace Uri

/-- The WHATWG `protocol` setter used by `this.protocol = protocol`: the
scheme part before any `:` replaces the old scheme when valid, otherwise
the assignment is ignored and the URL is left unchanged. -/
def setProtocol (u : URLRec) (p : String) : URLRec :=
  if validSchemeStr (String.mk (splitFirst ':' p.data).1) then
    { u with scheme := String.mk (splitFirst ':' p.data).1 }
  else u

/-- The WHATWG `port` setter used by `this.port = port`: the empty string
clears the port, a digit string of value at most 65535 replaces it, and
anything else is ignored. -/
def setPort (u : URLRec) (p : String) : URLRec :=
  if p = "" then { u with port := "" }
  else if (digitsToNat? p.data).elim false (· ≤ 65535) then { u with port := p }
  else u

/-- The WHATWG `host` setter used by `this.host = host`: `host[:port]`
replaces the hostname (and the port when one is embedded); an invalid
hostname or embedded port leaves the URL unchanged. -/
def setHost (u : URLRec) (h : String) : URLRec :=
  if validHostStr (String.mk (splitFirst ':' h.data).1) then
    match (splitFirst ':' h.data).2 with
    | none => { u with host := String.mk (splitFirst ':' h.data).1 }
    | some pc =>
      if pc = [] then
        { u with host := String.mk (splitFirst ':' h.data).1, port := "" }
      else if (digitsToNat? pc).elim false (· ≤ 65535) then
        { u with host := String.mk (splitFirst ':' h.data).1, port := String.mk pc }
      else u
  else u

/-- The WHATWG `pathname` setter used by `this.pathname = ...`: the given
string replaces the whole path, with a leading `/` supplied when missing. -/
def setPathname (u : URLRec) (p : String) : URLRec :=
  { u with pathname := if startsWithSlash p then p else String.mk ('/' :: p.data) }

/-- The `string | string[]` argument of `Uri.setPath`. -/
inductive PathArg where
  | str (s : String)
  | arr (xs : List String)
deriving DecidableEq, Repr

/-- `Uri.setPath`: `this.pathname = Array.isArray(path) ? path.join("/") : path`. -/
def setPath (u : URLRec) (p : PathArg) : URLRec :=
  setPathname u (match p with
    | .str s => s
    | .arr xs => String.intercalate "/" xs)

/-- The `string | Record<string, unknown>` first argument of `Uri.setQuery`. -/
inductive QueryArg where
  | str (s : String)
  | obj (entries : List (String × JsValue))
deriving DecidableEq, Repr

/-- `Uri.setQuery`: for an object argument, `searchParams.append(key,
String(value))` for each entry in iteration order; for a string key,
`searchParams.append(String(query), String(value))` with the (possibly
omitted, hence `undefined`) second argument. -/
def setQuery (u : URLRec) (query : QueryArg) (value : JsValue := .undefV) :
    URLRec :=
  match query with
  | .obj entries =>
    entries.foldl (fun acc kv => { acc with query := acc.query ++ [(kv.1, kv.2.toStringJs)] }) u
  | .str k => { u with query := u.query ++ [(k, value.toStringJs)] }

/-- `Uri._request` (exposed as `Uri.request` and `Uri.from`): resolve a
base, then construct `new this(path, base)`; `none` is the thrown
`Invalid URL` error. -/
def _request (env : Env) (st : UriState) (path : String)
    (request? : Option UriRequest) : Option URLRec :=
  newURL path (resolveBaseFromRequest env st request?)

/-- `Uri._request` with the process-wide configuration threaded explicitly,
to state frame effects: the source reads `this.#request` and
`this.fallbackBase` but assigns only the local `request` variable, so the
state component is returned as produced by those reads. -/
def requestSt (env : Env) (st : UriState) (path : String)
    (request? : Option UriRequest) : Option URLRec × UriState :=
  (newURL path (resolveBaseFromRequest env st request?), st)

/-- `Uri.request`, the public entry point: the same function as
`Uri._request` (the source freezes the property to this value); the alias
`Uri.from` is again the same function (`from` is reserved in Lean). -/
def request (env : Env) (st : UriState) (path : String)
    (request? : Option UriRequest) : Option URLRec :=
  _request env st path request?

end Uri

/-!
Instance identity.  The fluent mutators end in `return this`; to state
that a chain mutates one object rather than allocating, `Uri` instances
are modelled as references into a heap of URL records, and each mutator
updates the referenced cell and returns the same reference.
-/

/-- A reference to a `Uri` instance. -/
abbrev UriRef := Nat

/-- A heap of `Uri` instances. -/
structure UriHeap where
  cells : List URLRec
deriving DecidableEq, Repr

/-- Read the record behind a reference. -/
def UriHeap.read (h : UriHeap) (r : UriRef) : URLRec :=
  h.cells.getD r default

/-- Overwrite the record behind a reference. -/
def UriHeap.write (h : UriHeap) (r : UriRef) (u : URLRec) : UriHeap :=
  ⟨h.cells.set r u⟩

namespace Uri

/-- `setProtocol` on an instance: mutate in place, `return this`. -/
def setProtocolRef (h : UriHeap) (r : UriRef) (p : String) : UriHeap × UriRef :=
  (h.write r (setProtocol (h.read r) p), r)

/-- `setPort` on an instance: mutate in place, `return this`. -/
def setPortRef (h : UriHeap) (r : UriRef) (p : String) : UriHeap × UriRef :=
  (h.write r (setPort (h.read r) p), r)

/-- `setHost` on an instance: mutate in place, `return this`. -/
def setHostRef (h : UriHeap) (r : UriRef) (x : String) : UriHeap × UriRef :=
  (h.write r (setHost (h.read r) x), r)

/-- `setPath` on an instance: mutate in place, `return this`. -/
def setPathRef (h : UriHeap) (r : UriRef) (p : PathArg) : UriHeap × UriRef :=
  (h.write r (setPath (h.read r) p), r)

/-- `setQuery` on an instance: mutate in place, `return this`. -/
def setQueryRef (h : UriHeap) (r : UriRef) (q : QueryArg) (v : JsValue) :
    UriHeap × UriRef :=
  (h.write r (setQuery (h.read r) q v), r)

end Uri

/-- A path-absolute reference: begins with `/` but not `//` (so it replaces
the base's path while keeping its authority). -/
def pathAbs (p : String) : Bool :=
  match p.data with
  | '/' :: '/' :: _ => false
  | '/' :: _ => true
  | _ => false

/-- The occurrences of key `k` among a URL's search parameters, in order. -/
def queryValuesOf (u : URLRec) (k : String) : List String :=
  (u.query.filter fun kv => kv.1 = k).map Prod.snd

namespace Uri

/-- "No shape rule matches" for a resolved candidate: rules 2–5 of
`#resolveBaseFromRequest` all fall through, so resolution reaches the
fallback. -/
def noShapeRule : Option UriRequest → Bool
  | none => true
  | some (.str _) => false
  | some (.fetch _) => false
  | some (.custom r) => !rule4 r && !rule5 r

end Uri

/-!  Helper lemmas. -/

theorem checkValid_valid {u v : URLRec} (h : checkValid u = some v) :
    v.valid = true := by
  unfold checkValid at h
  split at h
  · cases h; assumption
  · cases h

theorem checkValid_of_valid {u : URLRec} (h : u.valid = true) :
    checkValid u = some u := by
  unfold checkValid
  simp [h]

theorem parseURL_valid {s : String} {u : URLRec} (h : parseURL s = some u) :
    u.valid = true := by
  unfold parseURL at h
  cases hb : buildURL s with
  | none => rw [hb] at h; cases h
  | some u' => rw [hb] at h; exact checkValid_valid h

theorem URLRec.valid_iff {u : URLRec} :
    u.valid = true ↔ validSchemeStr u.scheme = true ∧ validHostStr u.host = true ∧
      validPortStr u.port = true ∧ startsWithSlash u.pathname = true := by
  unfold URLRec.valid
  simp [Bool.and_eq_true, and_assoc]

theorem validSchemeStr_head {c : Char} {cs : List Char}
    (h : validSchemeStr (String.mk (c :: cs)) = true) : c.isAlpha = true := by
  unfold validSchemeStr at h
  simp only [Bool.and_eq_true] at h
  exact h.1

theorem splitScheme_shape {l sch rest : List Char}
    (h : splitScheme l = some (sch, rest))
    (hv : validSchemeStr (String.mk sch) = true) :
    ∃ c cs, l = c :: cs ∧ c.isAlpha = true := by
  cases l with
  | nil => cases h
  | cons c cs =>
    unfold splitScheme at h
    split at h
    · simp only [Option.some.injEq, Prod.mk.injEq] at h
      rw [← h.1] at hv
      exact absurd hv (by decide)
    · cases hm : splitScheme cs with
      | none => rw [hm] at h; cases h
      | some r =>
        rw [hm] at h
        simp only [Option.map_some', Option.some.injEq, Prod.mk.injEq] at h
        refine ⟨c, cs, rfl, ?_⟩
        rw [← h.1] at hv
        exact validSchemeStr_head hv

theorem checkValid_eq {u v : URLRec} (h : checkValid u = some v) : v = u := by
  unfold checkValid at h
  split at h
  · cases h; rfl
  · cases h

theorem parseURL_head_alpha {s : String} {u : URLRec} (h : parseURL s = some u) :
    ∃ c cs, s.data = c :: cs ∧ c.isAlpha = true := by
  unfold parseURL at h
  cases hb : buildURL s with
  | none => rw [hb] at h; cases h
  | some u' =>
    rw [hb] at h
    simp only [Option.some_bind] at h
    have hv : u'.valid = true := by
      have := checkValid_eq h
      rw [← this]
      exact checkValid_valid h
    unfold buildURL at hb
    cases hs : splitScheme s.data with
    | none => rw [hs] at hb; cases hb
    | some r =>
      rw [hs] at hb
      simp only [Option.map_some', Option.some.injEq] at hb
      have hsch : u'.scheme = String.mk r.1 := by rw [← hb]
      exact splitScheme_shape (by rw [hs])
        (by rw [← hsch]; exact (URLRec.valid_iff.mp hv).1)

theorem parseURL_none_of_not_alpha {s : String} {c : Char} {cs : List Char}
    (hd : s.data = c :: cs) (hc : c.isAlpha = false) : parseURL s = none := by
  cases hp : parseURL s with
  | none => rfl
  | some u =>
    obtain ⟨c', cs', hd', ha⟩ := parseURL_head_alpha hp
    rw [hd] at hd'
    cases hd'
    rw [ha] at hc
    cases hc

theorem pathAbs_shape {p : String} (hp : pathAbs p = true) :
    p.data = ['/'] ∨ ∃ c t, p.data = '/' :: c :: t ∧ c ≠ '/' := by
  unfold pathAbs at hp
  split at hp
  · cases hp
  · rename_i a t hne heq
    cases t with
    | nil => exact Or.inl heq
    | cons c ts =>
      refine Or.inr ⟨c, ts, heq, fun hc => ?_⟩
      exact hne ts (by rw [hc])
  · cases hp

theorem parseURL_none_of_pathAbs {p : String} (hp : pathAbs p = true) :
    parseURL p = none := by
  rcases pathAbs_shape hp with h | ⟨c, t, h, -⟩
  · exact parseURL_none_of_not_alpha h (by decide)
  · exact parseURL_none_of_not_alpha h (by decide)

theorem splitFirst_cons (sep c : Char) (cs : List Char) :
    splitFirst sep (c :: cs) = if c = sep then ([], some cs)
      else (c :: (splitFirst sep cs).1, (splitFirst sep cs).2) := rfl

theorem splitPQF_slash (l : List Char) :
    ∃ t, (splitPQF ('/' :: l)).1 = '/' :: t := by
  unfold splitPQF
  rw [splitFirst_cons '#' '/' l, if_neg (by decide)]
  rw [splitFirst_cons '?' '/' (splitFirst '#' l).1, if_neg (by decide)]
  exact ⟨_, rfl⟩

theorem startsWithSlash_mk_slash (t : List Char) :
    startsWithSlash (String.mk ('/' :: t)) = true := rfl

theorem resolveRelative_slash {bu : URLRec} {t : List Char}
    (hv : bu.valid = true)
    (ht : t = [] ∨ ∃ c ts, t = c :: ts ∧ c ≠ '/') :
    resolveRelative bu (String.mk ('/' :: t)) =
      some { scheme := bu.scheme, host := bu.host, port := bu.port,
             pathname := String.mk (splitPQF ('/' :: t)).1,
             query := parseQS (splitPQF ('/' :: t)).2.1,
             fragment := String.mk (splitPQF ('/' :: t)).2.2 } := by
  obtain ⟨hvs, hvh, hvp, -⟩ := URLRec.valid_iff.mp hv
  obtain ⟨t', ht'⟩ := splitPQF_slash t
  have hstep : resolveRelative bu (String.mk ('/' :: t)) =
      checkValid { scheme := bu.scheme, host := bu.host, port := bu.port,
                   pathname := String.mk (splitPQF ('/' :: t)).1,
                   query := parseQS (splitPQF ('/' :: t)).2.1,
                   fragment := String.mk (splitPQF ('/' :: t)).2.2 } := by
    rcases ht with rfl | ⟨c, ts, rfl, hc⟩
    · rfl
    · show (match ('/' :: c :: ts : List Char) with
        | [] => checkValid { bu with fragment := "" }
        | '/' :: '/' :: rest => parseURL (bu.scheme ++ "://" ++ String.mk rest)
        | '/' :: rest =>
          checkValid { scheme := bu.scheme, host := bu.host, port := bu.port,
                       pathname := String.mk (splitPQF ('/' :: rest)).1,
                       query := parseQS (splitPQF ('/' :: rest)).2.1,
                       fragment := String.mk (splitPQF ('/' :: rest)).2.2 }
        | '?' :: rest =>
          checkValid { bu with query := parseQS (splitFirst '#' rest).1,
                               fragment := String.mk ((splitFirst '#' rest).2.getD []) }
        | '#' :: rest => checkValid { bu with fragment := String.mk rest }
        | c :: rest =>
          checkValid { scheme := bu.scheme, host := bu.host, port := bu.port,
                       pathname := mergePath bu.pathname (String.mk (splitPQF (c :: rest)).1),
                       query := parseQS (splitPQF (c :: rest)).2.1,
                       fragment := String.mk (splitPQF (c :: rest)).2.2 }) = _
      split
      · rename_i heq
        cases heq
      · rename_i heq
        rw [List.cons.injEq, List.cons.injEq] at heq
        exact absurd heq.2.1 hc
      · rename_i heq
        rw [List.cons.injEq] at heq
        rw [heq.2]
      · rename_i heq
        rw [List.cons.injEq] at heq
        exact absurd heq.1 (by decide)
      · rename_i heq
        rw [List.cons.injEq] at heq
        exact absurd heq.1 (by decide)
      · rename_i hn1 hn2 hn3 hn4 hn5 heq
        rw [List.cons.injEq] at heq
        exact absurd heq.1.symm hn3
  rw [hstep]
  refine checkValid_of_valid ?_
  rw [URLRec.valid_iff]
  refine ⟨hvs, hvh, hvp, ?_⟩
  rw [ht']
  exact startsWithSlash_mk_slash t'

theorem resolveRelative_pathAbs {bu : URLRec} {p : String}
    (hv : bu.valid = true) (hp : pathAbs p = true) :
    resolveRelative bu p =
      some { scheme := bu.scheme, host := bu.host, port := bu.port,
             pathname := String.mk (splitPQF p.data).1,
             query := parseQS (splitPQF p.data).2.1,
             fragment := String.mk (splitPQF p.data).2.2 } := by
  obtain ⟨d⟩ := p
  rcases pathAbs_shape hp with h | ⟨c, ts, h, hc⟩
  · have hd : d = '/' :: [] := h
    subst hd
    exact resolveRelative_slash hv (Or.inl rfl)
  · have hd : d = '/' :: c :: ts := h
    subst hd
    exact resolveRelative_slash hv (Or.inr ⟨c, ts, rfl, hc⟩)

theorem newURL_pathAbs {b p : String} {bu : URLRec}
    (hb : parseURL b = some bu) (hp : pathAbs p = true) :
    newURL p (some b) =
      some { scheme := bu.scheme, host := bu.host, port := bu.port,
             pathname := String.mk (splitPQF p.data).1,
             query := parseQS (splitPQF p.data).2.1,
             fragment := String.mk (splitPQF p.data).2.2 } := by
  unfold newURL
  rw [parseURL_none_of_pathAbs hp]
  show (parseURL b).bind (fun bu => resolveRelative bu p) = _
  rw [hb]
  show resolveRelative bu p = _
  exact resolveRelative_pathAbs (parseURL_valid hb) hp

theorem originStr_congr {u v : URLRec} (h1 : u.scheme = v.scheme)
    (h2 : u.host = v.host) (h3 : u.port = v.port) :
    u.originStr = v.originStr := by
  unfold URLRec.originStr
  rw [h1, h2, h3]

theorem resolveBase_browser {w : Window} {loc : Location}
    (hw : w.location = some loc) (ho : loc.origin ≠ "")
    (st : UriState) (request? : Option UriRequest) :
    Uri.resolveBaseFromRequest (some w) st request? =
      some (if loc.href = "" then loc.origin else loc.href) := by
  have hbb : Uri.browserBase (some w) =
      some (if loc.href = "" then loc.origin else loc.href) := by
    show (match w.location with
      | none => none
      | some loc =>
        if loc.origin = "" then none
        else some (if loc.href = "" then loc.origin else loc.href)) = _
    rw [hw]
    exact if_neg ho
  unfold Uri.resolveBaseFromRequest
  rw [hbb]

theorem resolveBase_noBrowser {env : Env} (hb : Uri.browserBase env = none)
    (st : UriState) (request? : Option UriRequest) :
    Uri.resolveBaseFromRequest env st request? =
      (match Uri.resolveCandidate st request? with
       | some (.str s) => some s
       | some (.fetch url) => some url
       | some (.custom r) =>
         if Uri.rule4 r then some (Uri.rule4Out r)
         else if Uri.rule5 r then some (Uri.rule5Out r)
         else st.fallbackBase
       | none => st.fallbackBase) := by
  unfold Uri.resolveBaseFromRequest
  rw [hb]

theorem resolveBase_fallback {env : Env} {st : UriState}
    {request? : Option UriRequest}
    (hb : Uri.browserBase env = none)
    (hnr : Uri.noShapeRule (Uri.resolveCandidate st request?) = true) :
    Uri.resolveBaseFromRequest env st request? = st.fallbackBase := by
  rw [resolveBase_noBrowser hb]
  cases hc : Uri.resolveCandidate st request? with
  | none => rfl
  | some r =>
    rw [hc] at hnr
    cases r with
    | str s => cases hnr
    | fetch url => cases hnr
    | custom cr =>
      unfold Uri.noShapeRule at hnr
      simp only [Bool.and_eq_true, Bool.not_eq_true'] at hnr
      show (if Uri.rule4 cr then some (Uri.rule4Out cr)
        else if Uri.rule5 cr then some (Uri.rule5Out cr)
        else st.fallbackBase) = st.fallbackBase
      rw [if_neg (by rw [hnr.1]; exact Bool.false_ne_true),
          if_neg (by rw [hnr.2]; exact Bool.false_ne_true)]

theorem setProtocol_valid {u : URLRec} (hu : u.valid = true) (p : String) :
    (Uri.setProtocol u p).valid = true := by
  unfold Uri.setProtocol
  split
  · rename_i h
    rw [URLRec.valid_iff] at hu ⊢
    exact ⟨h, hu.2⟩
  · exact hu

theorem setPort_valid {u : URLRec} (hu : u.valid = true) (p : String) :
    (Uri.setPort u p).valid = true := by
  unfold Uri.setPort
  rw [URLRec.valid_iff] at hu
  split
  · rw [URLRec.valid_iff]
    refine ⟨hu.1, hu.2.1, ?_, hu.2.2.2⟩
    show validPortStr "" = true
    decide
  · split
    · rename_i h
      rw [URLRec.valid_iff]
      refine ⟨hu.1, hu.2.1, ?_, hu.2.2.2⟩
      unfold validPortStr
      rw [h, Bool.or_true]
    · rw [URLRec.valid_iff]
      exact hu

theorem setHost_valid {u : URLRec} (hu : u.valid = true) (h : String) :
    (Uri.setHost u h).valid = true := by
  unfold Uri.setHost
  rw [URLRec.valid_iff] at hu
  split
  · rename_i hh
    split
    · rw [URLRec.valid_iff]
      exact ⟨hu.1, hh, hu.2.2.1, hu.2.2.2⟩
    · split
      · rw [URLRec.valid_iff]
        refine ⟨hu.1, hh, ?_, hu.2.2.2⟩
        show validPortStr "" = true
        decide
      · split
        · rename_i hp
          rw [URLRec.valid_iff]
          refine ⟨hu.1, hh, ?_, hu.2.2.2⟩
          unfold validPortStr
          rw [show (String.mk _).data = _ from rfl, hp, Bool.or_true]
        · rw [URLRec.valid_iff]
          exact hu
  · rw [URLRec.valid_iff]
    exact hu

theorem setPathname_valid {u : URLRec} (hu : u.valid = true) (p : String) :
    (Uri.setPathname u p).valid = true := by
  unfold Uri.setPathname
  rw [URLRec.valid_iff] at hu ⊢
  refine ⟨hu.1, hu.2.1, hu.2.2.1, ?_⟩
  show startsWithSlash (if startsWithSlash p then p else String.mk ('/' :: p.data)) = true
  split
  · rename_i hp
    exact hp
  · exact startsWithSlash_mk_slash _

theorem setPath_valid {u : URLRec} (hu : u.valid = true) (p : Uri.PathArg) :
    (Uri.setPath u p).valid = true := by
  unfold Uri.setPath
  exact setPathname_valid hu _

theorem setQuery_obj_spec (entries : List (String × JsValue)) (u : URLRec)
    (v : JsValue) :
    Uri.setQuery u (.obj entries) v =
      { u with query := u.query ++ entries.map fun kv => (kv.1, kv.2.toStringJs) } := by
  induction entries generalizing u with
  | nil =>
    show u = _
    simp
  | cons e es ih =>
    show List.foldl _ _ (e :: es) = _
    rw [List.foldl_cons]
    have := ih { u with query := u.query ++ [(e.1, e.2.toStringJs)] }
    rw [show (List.foldl _ _ es : URLRec) = Uri.setQuery _ (.obj es) v from rfl]
    rw [this]
    simp

theorem setQuery_str_spec (u : URLRec) (k : String) (v : JsValue) :
    Uri.setQuery u (.str k) v = { u with query := u.query ++ [(k, v.toStringJs)] } := rfl

theorem setQuery_valid {u : URLRec} (hu : u.valid = true) (q : Uri.QueryArg)
    (v : JsValue) : (Uri.setQuery u q v).valid = true := by
  cases q with
  | str k =>
    rw [setQuery_str_spec]
    rw [URLRec.valid_iff] at hu ⊢
    exact hu
  | obj entries =>
    rw [setQuery_obj_spec]
    rw [URLRec.valid_iff] at hu ⊢
    exact hu

theorem resolveRelative_valid {bu : URLRec} {p : String} {u : URLRec}
    (h : resolveRelative bu p = some u) : u.valid = true := by
  unfold resolveRelative at h
  split at h
  · exact checkValid_valid h
  · exact parseURL_valid h
  · exact checkValid_valid h
  · exact checkValid_valid h
  · exact checkValid_valid h
  · exact checkValid_valid h

theorem newURL_valid {p : String} {base : Option String} {u : URLRec}
    (h : newURL p base = some u) : u.valid = true := by
  unfold newURL at h
  split at h
  · rename_i u' hp
    cases h
    exact parseURL_valid hp
  · rename_i hp
    cases base with
    | none => cases h
    | some b =>
      simp only at h
      cases hb : parseURL b with
      | none => rw [hb] at h; cases h
      | some bu =>
        rw [hb] at h
        simp only [Option.some_bind] at h
        exact resolveRelative_valid h

theorem UriHeap.read_write_ne (h : UriHeap) (r r' : UriRef) (u : URLRec)
    (hne : r' ≠ r) : (h.write r u).read r' = h.read r' := by
  unfold UriHeap.read UriHeap.write
  rw [List.getD_eq_getElem?_getD, List.getD_eq_getElem?_getD,
      List.getElem?_set_ne (Ne.symm hne)]

/-- Claim C2: for every resolved candidate that is a plain request object
(not a string, not a fetch Request) in a non-browser environment, if
`headers.host` and `protocol` are both truthy then the base resolver
returns exactly `protocol://headers.host`; the result does not depend on
the remaining fields or on the fallback, so no later rule is evaluated. -/
theorem claim_C2 (env : Env) (st : UriState) (request? : Option UriRequest)
    (r : CustomRequest) (hv : HeaderVal) (prot : String)
    (hb : Uri.browserBase env = none)
    (hc : Uri.resolveCandidate st request? = some (.custom r))
    (hh : r.headers.bind Headers.host = some hv) (hht : hv.truthy = true)
    (hp : r.protocol = some prot) (hpt : prot ≠ "") :
    Uri.resolveBaseFromRequest env st request? =
      some (prot ++ "://" ++ hv.toStringJs) := by
  rw [resolveBase_noBrowser hb, hc]
  have h4 : Uri.rule4 r = true := by
    unfold Uri.rule4
    rw [hh, hp]
    simp [hht, hpt]
  show (if Uri.rule4 r then some (Uri.rule4Out r)
    else if Uri.rule5 r then some (Uri.rule5Out r) else st.fallbackBase) = _
  rw [if_pos h4]
  unfold Uri.rule4Out
  rw [hh, hp]
  simp

/-- Witness for C2: a Fastify-style request with `protocol: "https"` and
`headers.host: "fastify.example.com"` resolves to
`https://fastify.example.com`, ignoring the fallback. -/
theorem claim_C2_witness :
    Uri.resolveBaseFromRequest none
      { fallbackBase := some "https://unused.fallback", staticRequest := none }
      (some (.custom { protocol := some "https",
                       headers := some { host := some (.str "fastify.example.com") } })) =
      some "https://fastify.example.com" :=
  (claim_C2 none
    { fallbackBase := some "https://unused.fallback", staticRequest := none }
    (some (.custom { protocol := some "https",
                     headers := some { host := some (.str "fastify.example.com") } }))
    { protocol := some "https",
      headers := some { host := some (.str "fastify.example.com") } }
    (.str "fastify.example.com") "https"
    rfl rfl rfl (by decide) rfl (by decide)).trans (by decide)

/-- Claim C3: for a resolved plain request object in a non-browser
environment on which rule 4 does not fire (`headers.host`/`protocol` not
both truthy), if `protocol`, `host` and `port` are all truthy the resolver
returns exactly `protocol://host:port`; and if rule 5's guard fails (any
of the three missing or falsy) resolution falls through to the fallback. -/
theorem claim_C3 (env : Env) (st : UriState) (request? : Option UriRequest)
    (r : CustomRequest)
    (hb : Uri.browserBase env = none)
    (hc : Uri.resolveCandidate st request? = some (.custom r))
    (h4 : Uri.rule4 r = false) :
    (∀ prot hst pv, r.protocol = some prot → prot ≠ "" →
        r.host = some hst → hst ≠ "" → r.port = some pv → pv.truthy = true →
        Uri.resolveBaseFromRequest env st request? =
          some (prot ++ "://" ++ hst ++ ":" ++ pv.toStringJs)) ∧
    (Uri.rule5 r = false →
        Uri.resolveBaseFromRequest env st request? = st.fallbackBase) := by
  constructor
  · intro prot hst pv hp hpt hh hht hq hqt
    rw [resolveBase_noBrowser hb, hc]
    have h5 : Uri.rule5 r = true := by
      unfold Uri.rule5
      rw [hp, hh, hq]
      simp [hpt, hht, hqt]
    show (if Uri.rule4 r then some (Uri.rule4Out r)
      else if Uri.rule5 r then some (Uri.rule5Out r) else st.fallbackBase) = _
    rw [if_neg (by rw [h4]; exact Bool.false_ne_true), if_pos h5]
    unfold Uri.rule5Out
    rw [hp, hh, hq]
    simp
  · intro h5
    refine resolveBase_fallback hb ?_
    rw [hc]
    show (!Uri.rule4 r && !Uri.rule5 r) = true
    rw [h4, h5]
    rfl

/-- Witness for C3: `{protocol: "http", host: "localhost", port: 3000}`
resolves to `http://localhost:3000`; the same object without a port falls
through to the fallback base. -/
theorem claim_C3_witness :
    Uri.resolveBaseFromRequest none
      { fallbackBase := some "https://fb.example", staticRequest := none }
      (some (.custom { protocol := some "http", host := some "localhost",
                       port := some (.num 3000) })) =
      some "http://localhost:3000" ∧
    Uri.resolveBaseFromRequest none
      { fallbackBase := some "https://fb.example", staticRequest := none }
      (some (.custom { protocol := some "http", host := some "localhost" })) =
      some "https://fb.example" := by
  constructor
  · exact ((claim_C3 none
      { fallbackBase := some "https://fb.example", staticRequest := none }
      (some (.custom { protocol := some "http", host := some "localhost",
                       port := some (.num 3000) }))
      { protocol := some "http", host := some "localhost",
        port := some (.num 3000) }
      rfl rfl (by decide)).1 "http" "localhost" (.num 3000)
      rfl (by decide) rfl (by decide) rfl (by decide)).trans (by decide)
  · exact ((claim_C3 none
      { fallbackBase := some "https://fb.example", staticRequest := none }
      (some (.custom { protocol := some "http", host := some "localhost" }))
      { protocol := some "http", host := some "localhost" }
      rfl rfl (by decide)).2 (by decide)).trans (by decide)

/-- Claim C10: a falsy candidate argument (the empty string) is replaced by
the process-wide default request before any rule is evaluated, so
resolution with the empty-string candidate coincides with resolution with
no candidate at all — the empty string itself is never returned by the
string rule; the result comes from the stored default (or the fallback). -/
theorem claim_C10 (env : Env) (st : UriState) (c : UriRequest)
    (hc : c.truthy = false) :
    Uri.resolveBaseFromRequest env st (some c) =
      Uri.resolveBaseFromRequest env st none := by
  unfold Uri.resolveBaseFromRequest
  have hcand : Uri.resolveCandidate st (some c) = Uri.resolveCandidate st none := by
    show (if c.truthy = true then some c else st.staticRequest) = st.staticRequest
    rw [if_neg (by rw [hc]; exact Bool.false_ne_true)]
  rw [hcand]

/-- Witness for C10: with a stored default request `"https://stored.example"`,
passing `""` resolves from the stored default, not from the empty string. -/
theorem claim_C10_witness :
    Uri.resolveBaseFromRequest none
      { fallbackBase := some "https://fallback.com",
        staticRequest := some (.str "https://stored.example") }
      (some (.str "")) = some "https://stored.example" :=
  (claim_C10 none
    { fallbackBase := some "https://fallback.com",
      staticRequest := some (.str "https://stored.example") }
    (.str "") (by decide)).trans (by decide)

/-- Claim C1: when a window with a location is present and the location's
origin is nonempty, the resolver returns `location.href` when truthy and
`location.origin` otherwise, for every candidate and every process-wide
state; and `create("/test", candidate)` yields a URL whose origin is the
location's origin and whose pathname is `"/test"` (the href's own path
does not survive).  The hypotheses `hparse`/`horigin` state the browser's
own coherence guarantee: the returned href (or origin) is an absolute URL
whose origin is `location.origin`. -/
theorem claim_C1 (w : Window) (loc : Location) (bu : URLRec)
    (hw : w.location = some loc) (ho : loc.origin ≠ "")
    (hparse : parseURL (if loc.href = "" then loc.origin else loc.href) = some bu)
    (horigin : bu.originStr = loc.origin) :
    (∀ st request?, Uri.resolveBaseFromRequest (some w) st request? =
        some (if loc.href = "" then loc.origin else loc.href)) ∧
    (∀ st request?, ∃ u, Uri._request (some w) st "/test" request? = some u ∧
        u.originStr = loc.origin ∧ u.pathname = "/test") := by
  refine ⟨fun st request? => resolveBase_browser hw ho st request?,
    fun st request? => ?_⟩
  unfold Uri._request
  rw [resolveBase_browser hw ho st request?]
  rw [newURL_pathAbs hparse (by decide)]
  refine ⟨_, rfl, ?_, ?_⟩
  · rw [← horigin]
    exact originStr_congr rfl rfl rfl
  · show String.mk (splitPQF "/test".data).1 = "/test"
    decide

/-- Witness for C1: origin `https://example.com`, href
`https://example.com/path`, with a competing string candidate: the result
is `https://example.com/test` (origin kept, href path replaced). -/
theorem claim_C1_witness :
    ∃ u, Uri._request
        (some { location := some { origin := "https://example.com",
                                   href := "https://example.com/path" } })
        { fallbackBase := none, staticRequest := none } "/test"
        (some (.str "https://other.com")) = some u ∧
      u.originStr = "https://example.com" ∧ u.pathname = "/test" :=
  (claim_C1
    { location := some { origin := "https://example.com",
                         href := "https://example.com/path" } }
    { origin := "https://example.com", href := "https://example.com/path" }
    { scheme := "https", host := "example.com", port := "",
      pathname := "/path", query := [], fragment := "" }
    rfl (by decide) (by decide) (by decide)).2
    { fallbackBase := none, staticRequest := none }
    (some (.str "https://other.com"))

/-- Claim C4: when no resolution rule matches (no browser signal, and the
resolved candidate matches none of the shape rules), resolution returns
the fallback slot; if a fallback base (an origin string) is set,
`create(path)` with a path-absolute relative path succeeds and the result's
origin equals the fallback; if no fallback is set and the path is not
itself a valid absolute URL, `create(path)` fails (`none`, the thrown
`Invalid URL` error — the model's only failure outcome). -/
theorem claim_C4 (env : Env) (st : UriState) (request? : Option UriRequest)
    (path : String)
    (hb : Uri.browserBase env = none)
    (hnr : Uri.noShapeRule (Uri.resolveCandidate st request?) = true) :
    (∀ fb bu, st.fallbackBase = some fb → parseURL fb = some bu →
        bu.originStr = fb → pathAbs path = true →
        ∃ u, Uri._request env st path request? = some u ∧ u.originStr = fb) ∧
    (st.fallbackBase = none → parseURL path = none →
        Uri._request env st path request? = none) := by
  have hres : Uri.resolveBaseFromRequest env st request? = st.fallbackBase :=
    resolveBase_fallback hb hnr
  constructor
  · intro fb bu hfb hp ho habs
    unfold Uri._request
    rw [hres, hfb]
    rw [newURL_pathAbs hp habs]
    refine ⟨_, rfl, ?_⟩
    rw [← ho]
    exact originStr_congr rfl rfl rfl
  · intro hfb hp
    unfold Uri._request
    rw [hres, hfb]
    unfold newURL
    rw [hp]

/-- Witness for C4: with fallback `https://fallback.com` and no candidate,
`create("/path")` succeeds with origin `https://fallback.com`; with no
fallback it fails with `Invalid URL` (`none`). -/
theorem claim_C4_witness :
    (∃ u, Uri._request none
        { fallbackBase := some "https://fallback.com", staticRequest := none }
        "/path" none = some u ∧ u.originStr = "https://fallback.com") ∧
    Uri._request none { fallbackBase := none, staticRequest := none }
      "/path" none = none := by
  constructor
  · exact (claim_C4 none
      { fallbackBase := some "https://fallback.com", staticRequest := none }
      none "/path" rfl rfl).1 "https://fallback.com"
      { scheme := "https", host := "fallback.com", port := "",
        pathname := "/", query := [], fragment := "" }
      rfl (by decide) (by decide) (by decide)
  · exact (claim_C4 none
      { fallbackBase := none, staticRequest := none }
      none "/path" rfl rfl).2 rfl (by decide)

/-- Claim C5: `setQuery` is append-only: two calls with the same key yield
two parameter occurrences for that key, the first value then the second,
never one overwritten occurrence; every appended value — the single value
and each mapping entry alike — is converted to its JavaScript default
string form (`String(v)`) before being appended, with no other coercion. -/
theorem claim_C5 (u : URLRec) (k : String) (v1 v2 : JsValue) :
    queryValuesOf (Uri.setQuery (Uri.setQuery u (.str k) v1) (.str k) v2) k =
      queryValuesOf u k ++ [v1.toStringJs, v2.toStringJs] ∧
    ∀ entries v, (Uri.setQuery u (.obj entries) v).query =
      u.query ++ entries.map fun kv => (kv.1, kv.2.toStringJs) := by
  constructor
  · rw [setQuery_str_spec, setQuery_str_spec]
    unfold queryValuesOf
    simp [List.filter_append]
  · intro entries v
    rw [setQuery_obj_spec]

/-- Claim C6: for every URL value, `setPath ["a","b"]` sets the pathname to
`/a/b` (segments joined with `/`) and `setPath "/x"` sets it to `/x`; the
result does not depend on the prior path, so the whole path is replaced,
not extended. -/
theorem claim_C6 (u : URLRec) :
    (Uri.setPath u (.arr ["a", "b"])).pathname = "/a/b" ∧
    (Uri.setPath u (.str "/x")).pathname = "/x" := by
  constructor
  · show (if startsWithSlash (String.intercalate "/" ["a", "b"]) = true
      then String.intercalate "/" ["a", "b"]
      else String.mk ('/' :: (String.intercalate "/" ["a", "b"]).data)) = "/a/b"
    decide
  · show (if startsWithSlash "/x" = true then "/x"
      else String.mk ('/' :: "/x".data)) = "/x"
    decide

/-- Claim C7: every fluent mutator returns the very same instance (the same
reference) it was called on, and the chain
`v.setProtocol(x).setPort(y).setHost(z)` mutates the one referenced cell:
every other heap cell is untouched. -/
theorem claim_C7 (h : UriHeap) (r : UriRef) (x y z : String)
    (p : Uri.PathArg) (q : Uri.QueryArg) (v : JsValue) :
    (Uri.setProtocolRef h r x).2 = r ∧
    (Uri.setPortRef h r y).2 = r ∧
    (Uri.setHostRef h r z).2 = r ∧
    (Uri.setPathRef h r p).2 = r ∧
    (Uri.setQueryRef h r q v).2 = r ∧
    ((Uri.setHostRef (Uri.setPortRef (Uri.setProtocolRef h r x).1
          (Uri.setProtocolRef h r x).2 y).1
        (Uri.setPortRef (Uri.setProtocolRef h r x).1
          (Uri.setProtocolRef h r x).2 y).2 z).2 = r ∧
      ∀ s, s ≠ r →
        (Uri.setHostRef (Uri.setPortRef (Uri.setProtocolRef h r x).1
            (Uri.setProtocolRef h r x).2 y).1
          (Uri.setPortRef (Uri.setProtocolRef h r x).1
            (Uri.setProtocolRef h r x).2 y).2 z).1.read s = h.read s) := by
  refine ⟨rfl, rfl, rfl, rfl, rfl, rfl, fun s hne => ?_⟩
  show (((h.write r _).write r _).write r _).read s = h.read s
  rw [UriHeap.read_write_ne _ _ _ _ hne, UriHeap.read_write_ne _ _ _ _ hne,
      UriHeap.read_write_ne _ _ _ _ hne]

/-- Witness for C7: on a two-cell heap, the chained mutation of cell 0
leaves cell 1 exactly as it was. -/
theorem claim_C7_witness :
    (Uri.setHostRef (Uri.setPortRef (Uri.setProtocolRef
          ⟨[{ scheme := "https", host := "a.example", port := "",
              pathname := "/", query := [], fragment := "" },
            { scheme := "http", host := "b.example", port := "",
              pathname := "/", query := [], fragment := "" }]⟩ 0 "http").1
        (Uri.setProtocolRef
          ⟨[{ scheme := "https", host := "a.example", port := "",
              pathname := "/", query := [], fragment := "" },
            { scheme := "http", host := "b.example", port := "",
              pathname := "/", query := [], fragment := "" }]⟩ 0 "http").2 "8080").1
      (Uri.setPortRef (Uri.setProtocolRef
          ⟨[{ scheme := "https", host := "a.example", port := "",
              pathname := "/", query := [], fragment := "" },
            { scheme := "http", host := "b.example", port := "",
              pathname := "/", query := [], fragment := "" }]⟩ 0 "http").1
        (Uri.setProtocolRef
          ⟨[{ scheme := "https", host := "a.example", port := "",
              pathname := "/", query := [], fragment := "" },
            { scheme := "http", host := "b.example", port := "",
              pathname := "/", query := [], fragment := "" }]⟩ 0 "http").2
        "8080").2 "c.example").1.read 1 =
    UriHeap.read ⟨[{ scheme := "https", host := "a.example", port := "",
                     pathname := "/", query := [], fragment := "" },
                   { scheme := "http", host := "b.example", port := "",
                     pathname := "/", query := [], fragment := "" }]⟩ 1 :=
  (claim_C7 ⟨[{ scheme := "https", host := "a.example", port := "",
                pathname := "/", query := [], fragment := "" },
              { scheme := "http", host := "b.example", port := "",
                pathname := "/", query := [], fragment := "" }]⟩ 0
    "http" "8080" "c.example" (.str "/") (.str "k") .nullV).2.2.2.2.2.2
    1 (by decide)

/-- Claim C8: `Uri._request` (exposed as `Uri.request` / `Uri.from`) leaves
both process-wide configuration slots — the stored default request and the
fallback base — unchanged, for every path and candidate, whether the call
succeeds or fails: the source reads the statics but assigns only the local
`request` variable. -/
theorem claim_C8 (env : Env) (st : UriState) (path : String)
    (request? : Option UriRequest) :
    (Uri.requestSt env st path request?).2.fallbackBase = st.fallbackBase ∧
    (Uri.requestSt env st path request?).2.staticRequest = st.staticRequest :=
  ⟨rfl, rfl⟩

/-- Claim C9: the URL value invariant — after construction (`new URL`,
with or without a base) and after every mutator call the value is a
syntactically valid absolute URL; a mutation that would break validity is
rejected by the field setter at the call, so no partially-valid object
ever exists. -/
theorem claim_C9 :
    (∀ s u, parseURL s = some u → u.valid = true) ∧
    (∀ path base u, newURL path base = some u → u.valid = true) ∧
    ∀ u, u.valid = true →
      (∀ p, (Uri.setProtocol u p).valid = true) ∧
      (∀ p, (Uri.setPort u p).valid = true) ∧
      (∀ hs, (Uri.setHost u hs).valid = true) ∧
      (∀ p, (Uri.setPath u p).valid = true) ∧
      (∀ q v, (Uri.setQuery u q v).valid = true) :=
  ⟨fun _ _ h => parseURL_valid h,
   fun _ _ _ h => newURL_valid h,
   fun _ hu =>
    ⟨fun p => setProtocol_valid hu p,
     fun p => setPort_valid hu p,
     fun hs => setHost_valid hu hs,
     fun p => setPath_valid hu p,
     fun q v => setQuery_valid hu q v⟩⟩

/-- Witness for C9: a freshly parsed URL is valid, and setting an invalid
port (`"abc"`) and then a valid one (`"8080"`) keeps it valid throughout. -/
theorem claim_C9_witness :
    (Uri.setPort (Uri.setPort { scheme := "https", host := "example.com",
                                port := "", pathname := "/", query := [],
                                fragment := "" }
      "abc") "8080").valid = true :=
  (claim_C9.2.2 _ ((claim_C9.2.2
    { scheme := "https", host := "example.com", port := "",
      pathname := "/", query := [], fragment := "" }
    (by decide)).2.1 "abc")).2.1 "8080"
